import Mathlib

/-!
# Shallow embedding of the `channel` Go package

The Go package wraps a native channel `chan T` together with a sticky
terminal error.  We model a channel `C[T]` as a functional state:

* `queue`  — the buffered, not-yet-read values of the underlying `chan T`
             (FIFO, head is read next);
* `cap`    — the fixed buffer capacity given at construction;
* `closed` — whether `close(c.c)` has been called;
* `err`    — the `err error` field (`none` models Go's `nil`).

Blocking operations are modelled as functions whose result distinguishes
the outcomes visible in a sequential execution: returning normally,
blocking forever (no concurrent peer in the model), or panicking.
Loops (`Range`, `Rest`, `Drain`, the `Intercept` relay) take a fuel
argument counting loop iterations; exhausted fuel is reported as `none`,
the same observable as blocking (the call does not return).
`select` statements with a context are nondeterministic when both
branches are ready; the scheduler's choice is an explicit `pick`
argument (`true` = take the `ctx.Done()` branch when both are ready).

Go errors are modelled by `GoError`; `Option GoError` is a Go `error`
variable (`none` = `nil`).  `io.EOF` is `GoError.eof`; a context's error
is `GoError.canceled`; `GoError.wrap e` models an error wrapping `e`
(equal to `e` under `errors.Is` but not under `==`).
-/

inductive GoError : Type where
  | eof : GoError
  | canceled : GoError
  | custom : Nat → GoError
  | wrap : GoError → GoError
deriving DecidableEq, Repr

/-- Go's `errors.Is(err, target)`: pointer equality, else unwrap and retry. -/
def errorsIs : GoError → GoError → Bool
  | e, target =>
    if e = target then true
    else match e with
      | .wrap inner => errorsIs inner target
      | _ => false

/-- The channel wrapper `C[T]` of `channel.go`:
`c chan T` is modelled by its buffered contents `queue`, its capacity
`cap` and its `closed` flag; `err error` is `err`. -/
structure C (T : Type) where
  queue : List T
  cap : Nat
  closed : Bool
  err : Option GoError
deriving DecidableEq, Repr

/-- `New[T]()`: a new unbuffered channel. -/
def New (T : Type) : C T := { queue := [], cap := 0, closed := false, err := none }

/-- `NewWithSize[T](i)`: a new channel with capacity `i`. -/
def NewWithSize (T : Type) (i : Nat) : C T :=
  { queue := [], cap := i, closed := false, err := none }

namespace C

variable {T : Type}

/-- `Len()`: number of queued (unread) elements, `len(c.c)`. -/
def Len (c : C T) : Nat := c.queue.length

/-- `Cap()`: capacity of the channel buffer, `cap(c.c)`. -/
def Cap (c : C T) : Nat := c.cap

/-- `Err()`: the sticky error field. -/
def Err (c : C T) : Option GoError := c.err

/-- Outcome of a read-like call: `ret v e c` is Go's `return v, e`
with `c` the channel state afterwards; `blocked` means the call never
returns in a sequential execution. -/
inductive RRes (T : Type) where
  | ret : T → Option GoError → C T → RRes T
  | blocked : RRes T
deriving DecidableEq, Repr

/-- `Read()`: `v, ok := <-c.c`.  A buffered value is delivered even after
close; on a closed, drained channel Go's receive yields `ok = false` and
`Read` returns `(zero, c.Err())`; on an open, empty channel the receive
blocks. -/
def Read [Inhabited T] (c : C T) : RRes T :=
  match c.queue with
  | v :: rest => .ret v none { c with queue := rest }
  | [] => if c.closed then .ret default c.err c else .blocked

/-- Whether the `case v, ok := <-c.c:` branch of a `select` is ready. -/
def recvReady (c : C T) : Bool := !c.queue.isEmpty || c.closed

/-- `ReadContext(ctx)`: the two-branch `select`.  `ctxDone` is whether
`ctx.Done()` is closed; `pick` resolves the race when both branches are
ready (`true` = context branch). -/
def ReadContext [Inhabited T] (ctxDone pick : Bool) (c : C T) : RRes T :=
  if ctxDone && (!recvReady c || pick) then
    .ret default (some .canceled) c
  else if recvReady c then Read c
  else .blocked

/-- Outcome of a write-like call. -/
inductive WRes (T : Type) where
  | ok : C T → WRes T
  | err : GoError → C T → WRes T
  | blocked : WRes T
  | panicked : WRes T
deriving DecidableEq, Repr

/-- `Write(v)`: `c.c <- v`.  Sending on a closed channel panics; with
buffer space the value is enqueued; otherwise the send blocks (no
concurrent receiver exists in the sequential model). -/
def Write (c : C T) (v : T) : WRes T :=
  if c.closed then .panicked
  else if c.queue.length < c.cap then .ok { c with queue := c.queue ++ [v] }
  else .blocked

/-- Whether the `case c.c <- v:` branch of a `select` is ready (a send on
a closed channel counts as ready and panics when chosen). -/
def sendReady (c : C T) : Bool := c.closed || c.queue.length < c.cap

/-- `WriteContext(ctx, v)`: the two-branch `select` around the send. -/
def WriteContext (ctxDone pick : Bool) (c : C T) (v : T) : WRes T :=
  if ctxDone && (!sendReady c || pick) then
    .err .canceled c
  else if sendReady c then
    (if c.closed then .panicked else .ok { c with queue := c.queue ++ [v] })
  else .blocked

/-- Outcome of `SetError` / `Close` / `CloseWithError`. -/
inductive MayPanic (T : Type) where
  | ok : C T → MayPanic T
  | panicked : MayPanic T
deriving DecidableEq, Repr

/-- `SetError(err)`: panics if an error is already set, normalizes `nil`
to `io.EOF`, records the error. -/
def SetError (c : C T) (e : Option GoError) : MayPanic T :=
  if c.err ≠ none then .panicked
  else .ok { c with err := some (e.getD .eof) }

/-- `Close()`: sets the sticky error to `io.EOF` if unset, then
`close(c.c)` — which panics on an already-closed channel. -/
def Close (c : C T) : MayPanic T :=
  if c.closed then .panicked
  else .ok { c with closed := true,
                    err := if c.err = none then some .eof else c.err }

/-- `CloseWithError(err)`: `SetError(err)` then `Close()`. -/
def CloseWithError (c : C T) (e : Option GoError) : MayPanic T :=
  match SetError c e with
  | .panicked => .panicked
  | .ok c' => Close c'

end C

/-- `NewWithError[T](err)`: `c := New[T](); c.CloseWithError(err)`.
The `CloseWithError` on a fresh channel cannot panic; the fallback
branch is unreachable. -/
def NewWithError (T : Type) (e : Option GoError) : C T :=
  match C.CloseWithError (New T) e with
  | .ok c => c
  | .panicked => New T

namespace C

variable {T : Type}

/-- `Range(fn)`: loop of `Read`; `io.EOF` is success, any other error
(from the channel or from `fn`) is returned.  `fuel` counts loop
iterations; the result is `none` when the call does not return within
`fuel` iterations, `some r` for Go's `return r`. -/
def Range [Inhabited T] (fuel : Nat) (c : C T) (fn : T → Option GoError) :
    Option (Option GoError) :=
  match fuel with
  | 0 => none
  | fuel + 1 =>
    match Read c with
    | .blocked => none
    | .ret v e c' =>
      if e = some .eof then some none
      else if e ≠ none then some e
      else match fn v with
        | some e' => some (some e')
        | none => Range fuel c' fn

/-- `RangeContext(ctx, fn)`: as `Range` but using `ReadContext`; the
scheduler's choice at each iteration is `picks` applied to the remaining
fuel. -/
def RangeContext [Inhabited T] (fuel : Nat) (ctxDone : Bool) (picks : Nat → Bool)
    (c : C T) (fn : T → Option GoError) : Option (Option GoError) :=
  match fuel with
  | 0 => none
  | fuel + 1 =>
    match ReadContext ctxDone (picks fuel) c with
    | .blocked => none
    | .ret v e c' =>
      if e = some .eof then some none
      else if e ≠ none then some e
      else match fn v with
        | some e' => some (some e')
        | none => RangeContext fuel ctxDone picks c' fn

/-- The loop of `Rest()` accumulating into `res`. -/
def restLoop [Inhabited T] (fuel : Nat) (c : C T) (res : List T) :
    Option (List T × Option GoError) :=
  match fuel with
  | 0 => none
  | fuel + 1 =>
    match Read c with
    | .blocked => none
    | .ret v e c' =>
      if e = some .eof then some (res, none)
      else if e ≠ none then some (res, e)
      else restLoop fuel c' (res ++ [v])

/-- `Rest()`: `res := append([]T(nil), make([]T, len(c.c))...)` — note
that `make([]T, n)` is a slice of `n` zero values, so `res` starts as
`len(c.c)` zero values — then the read loop appends to `res`. -/
def Rest [Inhabited T] (fuel : Nat) (c : C T) : Option (List T × Option GoError) :=
  restLoop fuel c (List.replicate c.queue.length default)

/-- The loop of `RestContext()`. -/
def restContextLoop [Inhabited T] (fuel : Nat) (ctxDone : Bool) (picks : Nat → Bool)
    (c : C T) (res : List T) : Option (List T × Option GoError) :=
  match fuel with
  | 0 => none
  | fuel + 1 =>
    match ReadContext ctxDone (picks fuel) c with
    | .blocked => none
    | .ret v e c' =>
      if e = some .eof then some (res, none)
      else if e ≠ none then some (res, e)
      else restContextLoop fuel ctxDone picks c' (res ++ [v])

/-- `RestContext(ctx)`: same preallocation of `len(c.c)` zero values,
then the `ReadContext` loop. -/
def RestContext [Inhabited T] (fuel : Nat) (ctxDone : Bool) (picks : Nat → Bool)
    (c : C T) : Option (List T × Option GoError) :=
  restContextLoop fuel ctxDone picks c (List.replicate c.queue.length default)

/-- `Drain()`: read and discard until `Read` returns a non-nil error.
The returned state is the channel when the call returns. -/
def Drain [Inhabited T] (fuel : Nat) (c : C T) : Option (C T) :=
  match fuel with
  | 0 => none
  | fuel + 1 =>
    match Read c with
    | .blocked => none
    | .ret _ none c' => Drain fuel c'
    | .ret _ (some _) c' => some c'

/-- The relay goroutine of `Intercept(fn)`: `c.Range` with a closure
that applies `fn` and forwards accepted values to `out` via a blocking
`out.Write`.  `acc` is the sequence of values forwarded so far (the
downstream is unbuffered; a cooperating downstream reader receives them
in this order).  Returns the forwarded values and the error `Range`
returned. -/
def interceptRelay [Inhabited T] (fuel : Nat) (fn : T → Option GoError)
    (c : C T) (acc : List T) : Option (List T × Option GoError) :=
  match fuel with
  | 0 => none
  | fuel + 1 =>
    match Read c with
    | .blocked => none
    | .ret v e c' =>
      if e = some .eof then some (acc, none)
      else if e ≠ none then some (acc, e)
      else match fn v with
        | some e' => some (acc, some e')
        | none => interceptRelay fuel fn c' (acc ++ [v])

/-- Observable behaviour of the downstream channel of `Intercept(fn)`:
the values forwarded to it in order, and its terminal error once the
relay's `defer out.Close()` has run — `Range`'s error if non-nil (via
`out.SetError`), else `io.EOF` (via `out.Close`). -/
def Intercept [Inhabited T] (fuel : Nat) (fn : T → Option GoError) (c : C T) :
    Option (List T × GoError) :=
  (interceptRelay fuel fn c []).map fun p => (p.1, p.2.getD .eof)

/-- The downstream channel allocated by `Intercept`:
`out := New[T]()` ("output with zero capacity, we don't want to add
another buffering"); the upstream `c` is the method receiver. -/
def interceptOut (_c : C T) : C T := New T

/-- The downstream channel allocated by `InterceptContext`: also
`out := New[T]()`. -/
def interceptContextOut (_c : C T) : C T := New T

end C

namespace ReadOnlyView

/-- `ReadOnly[T]`: a read-only view holding a reference to the core
channel (the `uncomparable` field has no observable content). -/
structure ReadOnly (T : Type) where
  c : C T

/-- `ReadOnly.Read` is the same as `C.Read`. -/
def ReadOnly.Read {T : Type} [Inhabited T] (r : ReadOnly T) : C.RRes T :=
  C.Read r.c

/-- `C.ReadOnly()`: wrap the channel in a read-only view. -/
def mk {T : Type} (c : C T) : ReadOnly T := ⟨c⟩

end ReadOnlyView

namespace C

variable {T : Type}

/-- With an un-fired context, `ReadContext` behaves exactly like `Read`
(the only ready branch is the receive, and an unready receive blocks). -/
theorem readContext_not_done [Inhabited T] (pick : Bool) (c : C T) :
    ReadContext false pick c = Read c := by
  rcases hq : c.queue with _ | ⟨v, rest⟩ <;> rcases hc : c.closed <;>
    simp [ReadContext, Read, recvReady, hq, hc]

/-- The relay's forwarded values and returned error, once the upstream
is a closed channel whose remaining values all pass `fn`. -/
theorem interceptRelay_pass [Inhabited T] (fn : T → Option GoError) (e : GoError) :
    ∀ (vs : List T) (fuel : Nat) (c : C T) (acc : List T),
      c.queue = vs → c.closed = true → c.err = some e →
      (∀ x ∈ vs, fn x = none) → vs.length < fuel →
      interceptRelay fuel fn c acc =
        some (acc ++ vs, if e = .eof then none else some e) := by
  intro vs
  induction vs with
  | nil =>
    intro fuel c acc hq hc he _ hf
    match fuel, hf with
    | fuel + 1, _ =>
      by_cases heof : e = .eof <;>
        simp [interceptRelay, Read, hq, hc, he, heof]
  | cons v rest ih =>
    intro fuel c acc hq hc he hall hf
    match fuel, hf with
    | fuel + 1, hf =>
      have hv : fn v = none := hall v (by simp)
      have hrec := ih fuel { c with queue := rest } (acc ++ [v]) rfl hc he
        (fun x hx => hall x (by simp [hx])) (Nat.lt_of_succ_lt_succ hf)
      simp [interceptRelay, Read, hq, hv, hrec]

/-- The relay stops at the first value rejected by `fn`: values after it
are neither forwarded nor examined, and the error returned is `fn`'s. -/
theorem interceptRelay_fail [Inhabited T] (fn : T → Option GoError) (e0 : GoError) (b : T) :
    ∀ (vs₁ vs₂ : List T) (fuel : Nat) (c : C T) (acc : List T),
      c.queue = vs₁ ++ b :: vs₂ → (∀ x ∈ vs₁, fn x = none) → fn b = some e0 →
      vs₁.length < fuel →
      interceptRelay fuel fn c acc = some (acc ++ vs₁, some e0) := by
  intro vs₁
  induction vs₁ with
  | nil =>
    intro vs₂ fuel c acc hq _ hb hf
    match fuel, hf with
    | fuel + 1, _ => simp [interceptRelay, Read, hq, hb]
  | cons v rest ih =>
    intro vs₂ fuel c acc hq hall hb hf
    match fuel, hf with
    | fuel + 1, hf =>
      have hv : fn v = none := hall v (by simp)
      have hrec := ih vs₂ fuel { c with queue := rest ++ b :: vs₂ } (acc ++ [v]) rfl
        (fun x hx => hall x (by simp [hx])) hb (Nat.lt_of_succ_lt_succ hf)
      simp [interceptRelay, Read, hq, hv, hrec]

/-- `Range` is the error component of the relay's behaviour: the relay
is `Range` with a forwarding accumulator. -/
theorem interceptRelay_snd [Inhabited T] (fn : T → Option GoError) :
    ∀ (fuel : Nat) (c : C T) (acc : List T),
      (interceptRelay fuel fn c acc).map Prod.snd = Range fuel c fn := by
  intro fuel
  induction fuel with
  | zero => intro c acc; simp [interceptRelay, Range]
  | succ fuel ih =>
    intro c acc
    rcases hq : c.queue with _ | ⟨v, rest⟩
    · rcases hc : c.closed
      · simp [interceptRelay, Range, Read, hq, hc]
      · rcases he : c.err with _ | e
        · rcases hv : fn default with _ | e' <;>
            simp [interceptRelay, Range, Read, hq, hc, he, hv, ih]
        · by_cases heof : e = .eof <;>
            simp [interceptRelay, Range, Read, hq, hc, he, heof]
    · rcases hv : fn v with _ | e'
      · simp [interceptRelay, Range, Read, hq, hv, ih]
      · simp [interceptRelay, Range, Read, hq, hv]

end C

namespace C

variable {T : Type}

/-- With an un-fired context, `RangeContext` behaves exactly like `Range`. -/
theorem rangeContext_not_done [Inhabited T] (fn : T → Option GoError) :
    ∀ (fuel : Nat) (picks : Nat → Bool) (c : C T),
      RangeContext fuel false picks c fn = Range fuel c fn := by
  intro fuel
  induction fuel with
  | zero => intro picks c; simp [RangeContext, Range]
  | succ fuel ih =>
    intro picks c
    unfold RangeContext Range
    rw [readContext_not_done]
    rcases Read c with ⟨v, e, c'⟩ | _
    · rcases e with _ | e
      · rcases fn v with _ | e' <;> simp [ih]
      · by_cases heof : e = .eof <;> simp [heof]
    · rfl

/-- With an un-fired context, `restContextLoop` behaves exactly like
`restLoop`. -/
theorem restContextLoop_not_done [Inhabited T] :
    ∀ (fuel : Nat) (picks : Nat → Bool) (c : C T) (res : List T),
      restContextLoop fuel false picks c res = restLoop fuel c res := by
  intro fuel
  induction fuel with
  | zero => intro picks c res; simp [restContextLoop, restLoop]
  | succ fuel ih =>
    intro picks c res
    unfold restContextLoop restLoop
    rw [readContext_not_done]
    rcases Read c with ⟨v, e, c'⟩ | _
    · rcases e with _ | e
      · simp [ih]
      · by_cases heof : e = .eof <;> simp [heof]
    · rfl

/-- `Drain` on a closed, errored channel returns once the queue is
exhausted, leaving the channel empty. -/
theorem drain_closed [Inhabited T] (e : GoError) :
    ∀ (vs : List T) (fuel : Nat) (c : C T),
      c.queue = vs → c.closed = true → c.err = some e → vs.length < fuel →
      Drain fuel c = some { c with queue := [] } := by
  intro vs
  induction vs with
  | nil =>
    intro fuel c hq hc he hf
    match fuel, hf with
    | fuel + 1, _ =>
      have : ({ c with queue := [] } : C T) = c := by
        cases c; simp_all
      rw [this]
      simp [Drain, Read, hq, hc, he]
  | cons v rest ih =>
    intro fuel c hq hc he hf
    match fuel, hf with
    | fuel + 1, hf =>
      have hrec := ih fuel { c with queue := rest } rfl hc he (Nat.lt_of_succ_lt_succ hf)
      simp [Drain, Read, hq, hrec]

end C

/-- Auxiliary: a read that returns a non-nil error never changes the
channel state (the value case is the only consuming one). -/
theorem read_err_state {T : Type} [Inhabited T] {c c' : C T} {w : T} {e : GoError}
    (h : C.Read c = .ret w (some e) c') : c' = c := by
  unfold C.Read at h
  rcases hq : c.queue with _ | ⟨x, rest⟩ <;> rw [hq] at h
  · rcases hc : c.closed <;> rw [hc] at h <;> simp at h
    exact h.2.2.symm
  · simp at h

/-- C1: the spec says that after writing N values and closing, Rest
returns exactly those N values with a nil error.  The code preallocates
its result as a slice of length len of the channel — zero values, not
spare capacity — so on a buffered channel still holding its values,
Rest returns the queued values prefixed by as many zero values.
Concretely: NewWithSize(1), Write(7), Close(), Rest() yields
the list 0, 7 (length 2) and a nil error, not the list 7. -/
theorem C1_rest_prepends_zero_values :
    C.Write (NewWithSize Nat 1) 7 =
      .ok { queue := [7], cap := 1, closed := false, err := none } ∧
    C.Close ({ queue := [7], cap := 1, closed := false, err := none } : C Nat) =
      .ok { queue := [7], cap := 1, closed := true, err := some .eof } ∧
    C.Rest 2 ({ queue := [7], cap := 1, closed := true, err := some .eof } : C Nat) =
      some ([0, 7], none) ∧
    ([0, 7] : List Nat) ≠ [7] := by
  refine ⟨by decide, by decide, by decide, by decide⟩

/-- C2 counterexample: the claim says every Read after CloseWithError(E)
returns the zero value paired with E.  On a buffered channel still
holding the value 5 when CloseWithError is called, the next Read
returns the queued value 5 with a nil error, not the pair of the zero
value and E predicted by the claim. -/
theorem C2_counterexample :
    C.Write (NewWithSize Nat 1) 5 =
      .ok { queue := [5], cap := 1, closed := false, err := none } ∧
    C.CloseWithError ({ queue := [5], cap := 1, closed := false, err := none } : C Nat)
        (some (.custom 0)) =
      .ok { queue := [5], cap := 1, closed := true, err := some (.custom 0) } ∧
    C.Read ({ queue := [5], cap := 1, closed := true, err := some (.custom 0) } : C Nat) =
      .ret 5 none { queue := [], cap := 1, closed := true, err := some (.custom 0) } ∧
    C.Read ({ queue := [5], cap := 1, closed := true, err := some (.custom 0) } : C Nat) ≠
      .ret 0 (some (.custom 0))
        { queue := [5], cap := 1, closed := true, err := some (.custom 0) } := by
  refine ⟨by decide, by decide, by decide, by decide⟩

/-- C2 (amended): after CloseWithError(E) with E non-nil — or a plain
Close(), which installs the end-of-stream sentinel — on a channel whose
queue is empty (in general, once the values queued at close time have
been drained), every subsequent Read, on the channel or on a read-only
view of it, returns the zero value paired with the terminal error, and
Err() returns that error. -/
theorem C2_sticky_terminal_error {T : Type} [Inhabited T] (c : C T) (E : GoError)
    (hq : c.queue = []) (hc : c.closed = false) (he : c.err = none) :
    C.CloseWithError c (some E) = .ok { c with closed := true, err := some E } ∧
    C.Read ({ c with closed := true, err := some E }) =
      .ret default (some E) { c with closed := true, err := some E } ∧
    C.Err ({ c with closed := true, err := some E } : C T) = some E ∧
    ReadOnlyView.ReadOnly.Read (ReadOnlyView.mk { c with closed := true, err := some E }) =
      .ret default (some E) { c with closed := true, err := some E } ∧
    C.Close c = .ok { c with closed := true, err := some .eof } ∧
    C.Read ({ c with closed := true, err := some .eof }) =
      .ret default (some .eof) { c with closed := true, err := some .eof } ∧
    C.Err ({ c with closed := true, err := some .eof } : C T) = some .eof := by
  refine ⟨?_, ?_, rfl, ?_, ?_, ?_, rfl⟩
  · simp [C.CloseWithError, C.SetError, C.Close, he, hc]
  · simp [C.Read, hq]
  · simp [ReadOnlyView.ReadOnly.Read, ReadOnlyView.mk, C.Read, hq]
  · simp [C.Close, he, hc]
  · simp [C.Read, hq]

/-- C2 witness: the amended claim evaluated on a fresh empty channel and
the error custom 1. -/
theorem C2_sticky_terminal_error_witness :
    C.CloseWithError (New Nat) (some (.custom 1)) =
      .ok { queue := [], cap := 0, closed := true, err := some (.custom 1) } ∧
    C.Read ({ queue := [], cap := 0, closed := true, err := some (.custom 1) } : C Nat) =
      .ret 0 (some (.custom 1))
        { queue := [], cap := 0, closed := true, err := some (.custom 1) } := by
  have h := C2_sticky_terminal_error (New Nat) (.custom 1) rfl rfl rfl
  exact ⟨h.1, h.2.1⟩

/-- C4: each of the three misuses panics rather than returning a value
or silently doing nothing: Write on a closed channel, SetError when a
terminal error is already set, and Close or CloseWithError on an
already-closed channel. -/
theorem C4_misuse_panics {T : Type} (c d : C T) (v : T) (e e' : Option GoError)
    (hc : c.closed = true) (hd : d.err ≠ none) :
    C.Write c v = .panicked ∧
    C.SetError d e = .panicked ∧
    C.Close c = .panicked ∧
    C.CloseWithError c e' = .panicked := by
  refine ⟨by simp [C.Write, hc], by simp [C.SetError, hd], by simp [C.Close, hc], ?_⟩
  unfold C.CloseWithError C.SetError C.Close
  by_cases he : c.err = none <;> simp [he, hc]

/-- C4 witness: the three misuse panics evaluated on a closed channel
and on a channel with its error already set. -/
theorem C4_misuse_panics_witness :
    C.Write ({ queue := [], cap := 0, closed := true, err := some .eof } : C Nat) 3 =
      .panicked ∧
    C.SetError ({ queue := [], cap := 0, closed := false, err := some .eof } : C Nat)
      (some (.custom 2)) = .panicked ∧
    C.Close ({ queue := [], cap := 0, closed := true, err := some .eof } : C Nat) =
      .panicked ∧
    C.CloseWithError ({ queue := [], cap := 0, closed := true, err := some .eof } : C Nat)
      none = .panicked :=
  C4_misuse_panics _ _ 3 (some (.custom 2)) none rfl (by simp)

/-- C7: NewWithError(err) is an already-closed channel whose terminal
error is err normalized to the end-of-stream sentinel when err is nil:
every Read immediately returns the zero value and that error, Err()
returns it, and Len() and Cap() are both 0. -/
theorem C7_new_with_error_closed (T : Type) [Inhabited T] (e : Option GoError) :
    NewWithError T e =
      { queue := [], cap := 0, closed := true, err := some (e.getD .eof) } ∧
    C.Read (NewWithError T e) =
      .ret default (some (e.getD .eof)) (NewWithError T e) ∧
    C.Err (NewWithError T e) = some (e.getD .eof) ∧
    C.Len (NewWithError T e) = 0 ∧
    C.Cap (NewWithError T e) = 0 := by
  have h1 : NewWithError T e =
      { queue := [], cap := 0, closed := true, err := some (e.getD .eof) } := by
    simp [NewWithError, C.CloseWithError, C.SetError, C.Close, New]
  refine ⟨h1, ?_, ?_, ?_, ?_⟩ <;> rw [h1] <;> simp [C.Read, C.Err, C.Len, C.Cap]

/-- C8: Drain on a closed channel holding any finite number of queued
values terminates, and on return the channel's Len is 0. -/
theorem C8_drain_terminates {T : Type} [Inhabited T] (c : C T) (e : GoError) (fuel : Nat)
    (hc : c.closed = true) (he : c.err = some e) (hf : c.queue.length < fuel) :
    C.Drain fuel c = some { c with queue := [] } ∧
    C.Len ({ c with queue := [] } : C T) = 0 :=
  ⟨C.drain_closed e c.queue fuel c rfl hc he hf, rfl⟩

/-- C8 witness: Drain evaluated on a closed channel holding two values. -/
theorem C8_drain_terminates_witness :
    C.Drain 3 ({ queue := [5, 6], cap := 2, closed := true, err := some .eof } : C Nat) =
      some { queue := [], cap := 2, closed := true, err := some .eof } ∧
    C.Len ({ queue := [], cap := 2, closed := true, err := some .eof } : C Nat) = 0 :=
  C8_drain_terminates _ .eof 3 rfl rfl (by decide)

/-- C10: the downstream channel allocated by Intercept and by
InterceptContext is the unbuffered New channel, so its capacity is 0
regardless of the upstream channel. -/
theorem C10_intercept_downstream_unbuffered {T : Type} (c : C T) :
    C.Cap (C.interceptOut c) = 0 ∧ C.Cap (C.interceptContextOut c) = 0 :=
  ⟨rfl, rfl⟩

/-- C5: when ReadContext takes the expired-context branch it returns the
zero value and the context's error with the channel state unchanged; in
fact any ReadContext that returns a non-nil error leaves the state
unchanged, so no queued value is consumed, the terminal error is
untouched and the channel is not closed.  Symmetrically, when
WriteContext returns an error the value was not enqueued: the state,
hence the queue, is unchanged. -/
theorem C5_context_abort_preserves_state {T : Type} [Inhabited T]
    (c : C T) (v : T) (ctxDone pick : Bool) :
    (ctxDone = true → (C.recvReady c = false ∨ pick = true) →
      C.ReadContext ctxDone pick c = .ret default (some .canceled) c) ∧
    (∀ w e c', C.ReadContext ctxDone pick c = .ret w (some e) c' → c' = c) ∧
    (ctxDone = true → (C.sendReady c = false ∨ pick = true) →
      C.WriteContext ctxDone pick c v = .err .canceled c) ∧
    (∀ e c', C.WriteContext ctxDone pick c v = .err e c' → c' = c) := by
  refine ⟨?_, ?_, ?_, ?_⟩
  · intro h1 h2
    rcases h2 with h2 | h2 <;> simp [C.ReadContext, h1, h2]
  · intro w e c' h
    unfold C.ReadContext at h
    split at h
    · cases h; rfl
    · split at h
      · exact read_err_state h
      · cases h
  · intro h1 h2
    rcases h2 with h2 | h2 <;> simp [C.WriteContext, h1, h2]
  · intro e c' h
    unfold C.WriteContext at h
    split at h
    · cases h; rfl
    · split at h
      · split at h <;> cases h
      · cases h

/-- C5 witness: an expired context on a fresh empty channel: ReadContext
returns the zero value with the cancellation error and WriteContext
returns the cancellation error, both leaving the channel as it was. -/
theorem C5_context_abort_witness :
    C.ReadContext true false (New Nat) = .ret 0 (some .canceled) (New Nat) ∧
    C.WriteContext true false (New Nat) 7 = .err .canceled (New Nat) :=
  ⟨(C5_context_abort_preserves_state (New Nat) 7 true false).1 rfl (Or.inl rfl),
   (C5_context_abort_preserves_state (New Nat) 7 true false).2.2.1 rfl (Or.inl rfl)⟩

/-- C9: the loops recognize end-of-stream by identity with the sentinel,
not by unwrapping: an error that wraps the sentinel satisfies errors.Is
with the sentinel yet is a different value, and Range, RangeContext,
Rest and RestContext all propagate it as a failure instead of treating
it as successful termination. -/
theorem C9_eof_by_identity_not_unwrapping {T : Type} [Inhabited T] (c : C T) (fuel : Nat)
    (fn : T → Option GoError) (picks : Nat → Bool)
    (hc : c.closed = true) (hq : c.queue = []) (he : c.err = some (.wrap .eof))
    (hf : 0 < fuel) :
    errorsIs (.wrap .eof) .eof = true ∧
    GoError.wrap .eof ≠ .eof ∧
    C.Range fuel c fn = some (some (.wrap .eof)) ∧
    C.RangeContext fuel false picks c fn = some (some (.wrap .eof)) ∧
    C.Rest fuel c = some ([], some (.wrap .eof)) ∧
    C.RestContext fuel false picks c = some ([], some (.wrap .eof)) := by
  obtain ⟨k, rfl⟩ : ∃ k, fuel = k + 1 := ⟨fuel - 1, by omega⟩
  refine ⟨by decide, by decide, ?_, ?_, ?_, ?_⟩
  · simp [C.Range, C.Read, hq, hc, he]
  · rw [C.rangeContext_not_done]
    simp [C.Range, C.Read, hq, hc, he]
  · simp [C.Rest, C.restLoop, C.Read, hq, hc, he]
  · rw [C.RestContext, C.restContextLoop_not_done]
    simp [hq, C.restLoop, C.Read, hc, he]

/-- C9 witness: the wrapped sentinel evaluated on a concrete closed
channel with one unit of fuel. -/
theorem C9_eof_by_identity_witness :
    errorsIs (.wrap .eof) .eof = true ∧
    GoError.wrap .eof ≠ .eof ∧
    C.Range 1 ({ queue := [], cap := 0, closed := true, err := some (.wrap .eof) } : C Nat)
      (fun _ => none) = some (some (.wrap .eof)) ∧
    C.RangeContext 1 false (fun _ => false)
      ({ queue := [], cap := 0, closed := true, err := some (.wrap .eof) } : C Nat)
      (fun _ => none) = some (some (.wrap .eof)) ∧
    C.Rest 1 ({ queue := [], cap := 0, closed := true, err := some (.wrap .eof) } : C Nat) =
      some ([], some (.wrap .eof)) ∧
    C.RestContext 1 false (fun _ => false)
      ({ queue := [], cap := 0, closed := true, err := some (.wrap .eof) } : C Nat) =
      some ([], some (.wrap .eof)) :=
  C9_eof_by_identity_not_unwrapping _ 1 (fun _ => none) (fun _ => false) rfl rfl rfl
    (by decide)

/-- C3: on a closed upstream, every value accepted by fn is forwarded
downstream in upstream order and, if fn never fails, the downstream is
closed with the upstream's terminal error (the sentinel or the explicit
error); if fn fails on a value, exactly the earlier values were
forwarded, the failing value is not forwarded, the downstream is closed
with fn's error, and the result does not depend on the later upstream
values — they are never passed to fn. -/
theorem C3_intercept_short_circuit {T : Type} [Inhabited T] (c : C T)
    (fn : T → Option GoError) (e : GoError) (fuel : Nat)
    (hc : c.closed = true) (he : c.err = some e) (hf : c.queue.length < fuel) :
    ((∀ x ∈ c.queue, fn x = none) → C.Intercept fuel fn c = some (c.queue, e)) ∧
    (∀ vs₁ b vs₂ e0, c.queue = vs₁ ++ b :: vs₂ → (∀ x ∈ vs₁, fn x = none) →
      fn b = some e0 → C.Intercept fuel fn c = some (vs₁, e0)) := by
  constructor
  · intro hall
    have h := C.interceptRelay_pass fn e c.queue fuel c [] rfl hc he hall hf
    unfold C.Intercept
    rw [h]
    by_cases heof : e = .eof <;> simp [heof]
  · intro vs₁ b vs₂ e0 hq hall hb
    have hlen : vs₁.length < fuel := by
      rw [hq] at hf; simp [List.length_append] at hf; omega
    have h := C.interceptRelay_fail fn e0 b vs₁ vs₂ fuel c [] hq hall hb hlen
    unfold C.Intercept
    rw [h]
    simp

/-- C3 witness: upstream values 1, 2, 3; with an all-accepting fn the
downstream carries 1, 2, 3 and closes with the sentinel; with an fn
failing on 2 the downstream carries only 1 and closes with fn's error. -/
theorem C3_intercept_short_circuit_witness :
    C.Intercept 4 (fun _ => none)
      ({ queue := [1, 2, 3], cap := 3, closed := true, err := some .eof } : C Nat) =
      some ([1, 2, 3], .eof) ∧
    C.Intercept 4 (fun v => if v = 2 then some (.custom 9) else none)
      ({ queue := [1, 2, 3], cap := 3, closed := true, err := some .eof } : C Nat) =
      some ([1], .custom 9) :=
  ⟨(C3_intercept_short_circuit
      ({ queue := [1, 2, 3], cap := 3, closed := true, err := some .eof } : C Nat)
      (fun _ => none) .eof 4 rfl rfl (by decide)).1 (by intro x _; rfl),
   (C3_intercept_short_circuit
      ({ queue := [1, 2, 3], cap := 3, closed := true, err := some .eof } : C Nat)
      (fun v => if v = 2 then some (.custom 9) else none)
      .eof 4 rfl rfl (by decide)).2 [1] 2 [3] (.custom 9) rfl (by decide) (by decide)⟩

/-- C6: Range invokes fn on the values read in order and returns: nil
when the channel closed with the sentinel; the terminal error when it
is not the sentinel; fn's error at the first failing value, never
reading further values (the result does not depend on them).
RangeContext with an un-fired context behaves exactly like Range, and
with an expired context returns the context's error. -/
theorem C6_range_result {T : Type} [Inhabited T] (c : C T) (fn : T → Option GoError)
    (e : GoError) (fuel : Nat) (picks : Nat → Bool) :
    (c.closed = true → c.err = some e → c.queue.length < fuel →
      ((∀ x ∈ c.queue, fn x = none) →
        C.Range fuel c fn = some (if e = .eof then none else some e)) ∧
      (∀ vs₁ b vs₂ e0, c.queue = vs₁ ++ b :: vs₂ → (∀ x ∈ vs₁, fn x = none) →
        fn b = some e0 → C.Range fuel c fn = some (some e0))) ∧
    C.RangeContext fuel false picks c fn = C.Range fuel c fn ∧
    (c.closed = false → c.queue = [] → 0 < fuel →
      C.RangeContext fuel true picks c fn = some (some .canceled)) := by
  refine ⟨?_, C.rangeContext_not_done fn fuel picks c, ?_⟩
  · intro hc he hf
    constructor
    · intro hall
      have h := C.interceptRelay_pass fn e c.queue fuel c [] rfl hc he hall hf
      rw [← C.interceptRelay_snd fn fuel c [], h]
      by_cases heof : e = .eof <;> simp [heof]
    · intro vs₁ b vs₂ e0 hq hall hb
      have hlen : vs₁.length < fuel := by
        rw [hq] at hf; simp [List.length_append] at hf; omega
      have h := C.interceptRelay_fail fn e0 b vs₁ vs₂ fuel c [] hq hall hb hlen
      rw [← C.interceptRelay_snd fn fuel c [], h]
      rfl
  · intro hc hq hf
    obtain ⟨k, rfl⟩ : ∃ k, fuel = k + 1 := ⟨fuel - 1, by omega⟩
    simp [C.RangeContext, C.ReadContext, C.recvReady, hq, hc]

/-- C6 witness: Range evaluated on closed channels holding 1, 2 — with
the sentinel it returns nil, with an explicit error it returns that
error, with an fn failing on 2 it returns that failure — and
RangeContext with an expired context returns the cancellation error. -/
theorem C6_range_result_witness :
    C.Range 3 ({ queue := [1, 2], cap := 2, closed := true, err := some .eof } : C Nat)
      (fun _ => none) = some none ∧
    C.Range 3 ({ queue := [1, 2], cap := 2, closed := true, err := some (.custom 4) } : C Nat)
      (fun _ => none) = some (some (.custom 4)) ∧
    C.Range 3 ({ queue := [1, 2], cap := 2, closed := true, err := some .eof } : C Nat)
      (fun v => if v = 2 then some (.custom 5) else none) = some (some (.custom 5)) ∧
    C.RangeContext 1 true (fun _ => false) (New Nat) (fun _ => none) =
      some (some .canceled) := by
  refine ⟨?_, ?_, ?_, ?_⟩
  · have h := ((C6_range_result
      ({ queue := [1, 2], cap := 2, closed := true, err := some .eof } : C Nat)
      (fun _ => none) .eof 3 (fun _ => false)).1 rfl rfl (by decide)).1
      (by intro x _; rfl)
    simpa using h
  · have h := ((C6_range_result
      ({ queue := [1, 2], cap := 2, closed := true, err := some (.custom 4) } : C Nat)
      (fun _ => none) (.custom 4) 3 (fun _ => false)).1 rfl rfl (by decide)).1
      (by intro x _; rfl)
    simpa using h
  · exact ((C6_range_result
      ({ queue := [1, 2], cap := 2, closed := true, err := some .eof } : C Nat)
      (fun v => if v = 2 then some (.custom 5) else none) .eof 3
      (fun _ => false)).1 rfl rfl (by decide)).2 [1] 2 [] (.custom 5) rfl (by decide)
      (by decide)
  · exact (C6_range_result (New Nat) (fun _ => none) .eof 1 (fun _ => false)).2.2 rfl rfl
      (by decide)
